import Mathlib

/-!
Verification of the openapi-mcp core against its natural-language
specification.  The Python sources under `src/` are shallowly embedded:

* Python/JSON values are the inductive `JValue`; Python dicts are
  association lists with first-occurrence lookup and in-place update
  (`upsert`), matching CPython's insertion-ordered dicts with unique keys.
* Fallible Python code (code that can raise) returns `Option`/`Except`;
  the unbounded `$ref` recursion of the example synthesizer is modelled
  with an explicit fuel parameter, fuel exhaustion standing for
  non-termination / stack overflow.
* Effectful code (file opens/closes, the HTTP send) is modelled by
  explicit state passing and an effect trace.
-/

/-- A Python/JSON value.  `float` uses `Rat`; the only float the embedded
code itself produces is `0.0`. -/
inductive JValue where
  | null : JValue
  | bool (b : Bool) : JValue
  | int (n : Int) : JValue
  | float (q : Rat) : JValue
  | str (s : String) : JValue
  | arr (xs : List JValue) : JValue
  | obj (fields : List (String × JValue)) : JValue
deriving Repr

namespace JValue

/-- Key lookup on a Python dict (first occurrence; dict keys are unique).
On a non-dict value this returns `none`; the Python membership test on a
non-dict would raise or do substring search, a corner no embedded code path
relies on. -/
def jget : JValue → String → Option JValue
  | .obj fields, k => fields.lookup k
  | _, _ => none

/-- Python `d.get(k, default)`. -/
def jgetD (v : JValue) (k : String) (d : JValue) : JValue :=
  (v.jget k).getD d

/-- Python `k in d` for a dict. -/
def hasKey (v : JValue) (k : String) : Bool :=
  (v.jget k).isSome

/-- Python truthiness of a value. -/
def pyTruthy : JValue → Bool
  | .null => false
  | .bool b => b
  | .int n => n != 0
  | .float q => q != 0
  | .str s => s != ""
  | .arr xs => !xs.isEmpty
  | .obj fields => !fields.isEmpty

/-- View a value as a dict's entry list. -/
def asObj : JValue → Option (List (String × JValue))
  | .obj fields => some fields
  | _ => none

/-- View a value as a string. -/
def asStr : JValue → Option String
  | .str s => some s
  | _ => none

end JValue

/-- Python dict assignment `d[k] = v`: update in place when the key exists
(position preserved), else append at the end. -/
def upsert {α : Type} (m : List (String × α)) (k : String) (v : α) :
    List (String × α) :=
  match m with
  | [] => [(k, v)]
  | (k', v') :: rest =>
    if k' = k then (k, v) :: rest else (k', v') :: upsert rest k v

/-- Key membership in an association list (Python `k in d`). -/
def containsKey {α : Type} (m : List (String × α)) (k : String) : Bool :=
  m.any (fun p => p.1 == k)

/-- The dict's keys, in insertion order. -/
def keysOf {α : Type} (m : List (String × α)) : List String := m.map Prod.fst

/-- Python dict merge `\x7b**a, **b\x7d`: start from `a`, then write each
entry of `b` in order (later keys override, position preserved). -/
def dictMerge {α : Type} (a b : List (String × α)) : List (String × α) :=
  b.foldl (fun m kv => upsert m kv.1 kv.2) a

/-- Python `del d[k]` (no-op when the key is absent; the source guards the
deletion with a membership test). -/
def delAssoc {α : Type} (m : List (String × α)) (k : String) : List (String × α) :=
  m.filter (fun p => p.1 ≠ k)

/-- Split a character list at every occurrence of a separator, Python
`str.split(sep)` style (adjacent separators yield empty segments). -/
def splitOnCharAux (sep : Char) : List Char → List Char → List (List Char)
  | [], acc => [acc.reverse]
  | c :: rest, acc =>
    if c = sep then acc.reverse :: splitOnCharAux sep rest []
    else splitOnCharAux sep rest (c :: acc)

/-- Python `s.split(sep)` for a one-character separator. -/
def pySplit (sep : Char) (s : String) : List String :=
  (splitOnCharAux sep s.toList []).map String.mk

/-- Embedding of `src/utils/openapi_utils.py::_resolve_ref`: only local
`#/`-pointers are supported; all leading `#` and `/` characters are
stripped (Python `lstrip("#/")`), the remainder is split on `/` and walked
by dict lookup.  `none` models the raised `ValueError`/`KeyError`. -/
def resolveRef (spec : JValue) (ref : String) : Option JValue :=
  match ref.toList with
  | '#' :: '/' :: _ =>
    let rest := String.mk (ref.toList.dropWhile (fun c => c = '#' || c = '/'))
    (pySplit '/' rest).foldlM (fun (obj : JValue) part => obj.jget part) spec
  | _ => none

/-- Argument shape for the fuelled example synthesizer: either one schema
node or the pending tail of an object's `properties` list.  Keeping both
in a single structurally fuel-recursive function lets concrete instances
evaluate by kernel reduction. -/
inductive GenArg where
  | one (schema : JValue) : GenArg
  | many (props : List (String × JValue)) : GenArg

/-- Embedding of `src/example_generator.py::generate_example_from_schema`.
Fuel decreases on every recursive call; `none` models a raised exception or
the unbounded `$ref` recursion of the source (which has no cycle guard).
A schema node that is not a dict fails, as the Python membership tests
would.  Resolution order per node follows the source: root `$ref`, then
`example`, `examples`, `default`, non-empty `enum`, then dispatch on
`type`, with `"example"` as the final fallback. -/
def generateExampleAux (spec : JValue) : Nat → GenArg → Option JValue
  | 0, _ => none
  | _ + 1, .many [] => some (JValue.obj [])
  | fuel + 1, .many ((k, psch) :: rest) => do
    let v ← generateExampleAux spec fuel (.one psch)
    let restv ← generateExampleAux spec fuel (.many rest)
    match restv with
    | .obj fs => some (JValue.obj ((k, v) :: fs))
    | _ => none
  | fuel + 1, .one schema0 => do
    let schema ←
      if schema0.hasKey "$ref" then
        match schema0.jget "$ref" with
        | some (.str r) => resolveRef spec r
        | _ => none
      else
        some schema0
    let _ ← schema.asObj
    if schema.hasKey "example" then
      schema.jget "example"
    else
    match
      (match schema.jget "examples" with
       | some (.obj entries) =>
         entries.findSome? (fun p =>
           match p.2 with
           | .obj exFields =>
             match exFields.lookup "value" with
             | some v => some v
             | none => none
           | .str s => some (JValue.str s)
           | _ => none)
       | _ => none)
    with
    | some v => some v
    | none =>
    if schema.hasKey "default" then
      schema.jget "default"
    else
    match schema.jget "enum" with
    | some (.arr (e :: _)) => some e
    | _ =>
    match schema.jget "type" with
    | some (.str "object") =>
      match schema.jgetD "properties" (.obj []) with
      | .obj props => generateExampleAux spec fuel (.many props)
      | _ => some (JValue.obj [])
    | some (.str "array") => do
      let itemv ← generateExampleAux spec fuel (.one (schema.jgetD "items" (.obj [])))
      some (JValue.arr [itemv])
    | some (.str "string") =>
      match schema.jget "format" with
      | some (.str "date-time") => some (.str "2023-01-01T00:00:00Z")
      | some (.str "date") => some (.str "2023-01-01")
      | some (.str "uuid") => some (.str "123e4567-e89b-12d3-a456-426614174000")
      | some (.str "email") => some (.str "user@example.com")
      | _ => some (.str "string")
    | some (.str "integer") => some (.int 0)
    | some (.str "number") => some (.float 0)
    | some (.str "boolean") => some (.bool true)
    | _ => some (.str "example")

/-- Top-level entry point mirroring `generate_example_from_schema(spec, schema)`,
with explicit fuel. -/
def generate_example_from_schema (spec : JValue) (fuel : Nat) (schema : JValue) :
    Option JValue :=
  generateExampleAux spec fuel (.one schema)

/-- Replace every (non-overlapping, leftmost-first) occurrence of a pattern
in a character list, Python `str.replace` style.  Fuelled by the input
length so the recursion is structural and kernel-reducible. -/
def pyReplaceAux (pat rep : List Char) : Nat → List Char → List Char
  | _, [] => []
  | 0, cs => cs
  | fuel + 1, c :: cs =>
    if pat ≠ [] ∧ pat.isPrefixOf (c :: cs) then
      rep ++ pyReplaceAux pat rep fuel (List.drop pat.length (c :: cs))
    else
      c :: pyReplaceAux pat rep fuel cs

/-- Python `s.replace(pat, rep)` (for a non-empty pattern). -/
def pyReplace (s pat rep : String) : String :=
  String.mk (pyReplaceAux pat.toList rep.toList s.length s.toList)

/-- Python `s.strip(chars)`: drop the given characters from both ends. -/
def pyStripChars (chars : List Char) (s : String) : String :=
  String.mk
    (((s.toList.dropWhile (fun c => chars.contains c)).reverse.dropWhile
        (fun c => chars.contains c)).reverse)

/-- Python `s.rstrip(chars)`: drop the given characters from the right end. -/
def pyRstrip (chars : List Char) (s : String) : String :=
  String.mk ((s.toList.reverse.dropWhile (fun c => chars.contains c)).reverse)

/-- Python `s.lower()` (ASCII case folding, which covers HTTP verbs). -/
def pyLower (s : String) : String :=
  String.mk (s.toList.map Char.toLower)

/-- Character membership in a shell-glob bracket class: literal members and
`a-z` ranges, as produced by `fnmatch.translate`. -/
def classMatch : List Char → Char → Bool
  | a :: '-' :: b :: rest, c =>
    if rest.isEmpty ∧ b = ']' then
      -- cannot occur: class contents never contain the closing bracket
      (a == c) || ('-' == c)
    else
      (a ≤ c && c ≤ b) || classMatch rest c
  | a :: rest, c => (a == c) || classMatch rest c
  | [], _ => false

/-- Scan for the end of a shell-glob bracket class.  Returns the class
contents and the remainder after the closing `]`; a `]` directly after the
opening (or after `!`) is a literal member, and an unterminated class makes
the `[` literal, as in Python's `fnmatch.translate`. -/
def classSpan : List Char → List Char → Option (List Char × List Char)
  | acc, c :: rest =>
    if c = ']' ∧ acc ≠ [] then some (acc.reverse, rest)
    else classSpan (c :: acc) rest
  | _, [] => none

/-- Shell-glob matching, fuelled by the total remaining length so the
recursion is structural.  Mirrors Python `fnmatch.fnmatch` on a
case-sensitive (POSIX) system: `*` matches any sequence, `?` any single
character, `[...]`/`[!...]` character classes, everything else literally. -/
def globMatchAux : Nat → List Char → List Char → Bool
  | 0, p, s => p.isEmpty && s.isEmpty
  | _ + 1, [], s => s.isEmpty
  | fuel + 1, '*' :: ps, [] => globMatchAux fuel ps []
  | fuel + 1, '*' :: ps, c :: cs =>
    globMatchAux fuel ps (c :: cs) || globMatchAux fuel ('*' :: ps) cs
  | fuel + 1, '?' :: ps, _ :: cs => globMatchAux fuel ps cs
  | _ + 1, '?' :: _, [] => false
  | fuel + 1, '[' :: ps, s =>
    let (negated, body) :=
      match ps with
      | '!' :: rest => (true, rest)
      | _ => (false, ps)
    match classSpan [] body with
    | some (cls, rest) =>
      match s with
      | [] => false
      | c :: cs => (negated ^^ classMatch cls c) && globMatchAux fuel rest cs
    | none =>
      match s with
      | '[' :: cs => globMatchAux fuel ps cs
      | _ => false
  | fuel + 1, p :: ps, c :: cs => (p == c) && globMatchAux fuel ps cs
  | _ + 1, _ :: _, [] => false

/-- Python `fnmatch.fnmatch(val, pat)` on a case-sensitive filesystem. -/
def fnmatch (val pat : String) : Bool :=
  globMatchAux (pat.length + val.length + 1) pat.toList val.toList

/-- Escape one character as inside a `json.dumps` string literal
(quote, backslash and common control characters; other characters pass
through — `ensure_ascii` escaping of non-ASCII is not modelled, no claim
depends on it). -/
def jsonEscapeChar (c : Char) : String :=
  if c = '"' then "\\\""
  else if c = '\\' then "\\\\"
  else if c = '\n' then "\\n"
  else if c = '\t' then "\\t"
  else if c = '\r' then "\\r"
  else String.mk [c]

/-- Escape a string as `json.dumps` would render its contents. -/
def jsonEscape (s : String) : String :=
  String.join (s.toList.map jsonEscapeChar)

/-- Render a float the way Python prints the floats this code produces
(`0.0`); non-integral rationals are rendered as `num/den`, an approximation
never exercised by the embedded code paths. -/
def floatRepr (q : Rat) : String :=
  if q.den = 1 then toString q.num ++ ".0"
  else toString q.num ++ "/" ++ toString q.den

/-- Embedding of `json.dumps` with its default separators, as used by
`src/tool_generator.py::extract_body` for the example annotation. -/
def jsonDumps : JValue → String
  | .null => "null"
  | .bool true => "true"
  | .bool false => "false"
  | .int n => toString n
  | .float q => floatRepr q
  | .str s => "\"" ++ jsonEscape s ++ "\""
  | .arr xs =>
    "[" ++ String.intercalate ", " (xs.attach.map (fun x => jsonDumps x.1)) ++ "]"
  | .obj fields =>
    "\x7b" ++
      String.intercalate ", "
        (fields.attach.map (fun p => "\"" ++ jsonEscape p.1.1 ++ "\": " ++ jsonDumps p.1.2)) ++
      "\x7d"
decreasing_by
  · have h := List.sizeOf_lt_of_mem x.2
    simp only [JValue.arr.sizeOf_spec] at *
    omega
  · have h1 := List.sizeOf_lt_of_mem p.2
    have h2 : sizeOf p.1.2 < sizeOf p.1 := by
      cases p.1 with
      | mk a b => simp
    simp only [JValue.obj.sizeOf_spec] at *
    omega

/-- Python `repr` for the values that can appear in an OpenAPI document
(strings in single quotes, `True`/`False`/`None`, lists and dicts with
`repr`-rendered members). -/
def pyRepr : JValue → String
  | .null => "None"
  | .bool true => "True"
  | .bool false => "False"
  | .int n => toString n
  | .float q => floatRepr q
  | .str s => "'" ++ s ++ "'"
  | .arr xs =>
    "[" ++ String.intercalate ", " (xs.attach.map (fun x => pyRepr x.1)) ++ "]"
  | .obj fields =>
    "\x7b" ++
      String.intercalate ", "
        (fields.attach.map (fun p => "'" ++ p.1.1 ++ "': " ++ pyRepr p.1.2)) ++
      "\x7d"
decreasing_by
  · have h := List.sizeOf_lt_of_mem x.2
    simp only [JValue.arr.sizeOf_spec] at *
    omega
  · have h1 := List.sizeOf_lt_of_mem p.2
    have h2 : sizeOf p.1.2 < sizeOf p.1 := by
      cases p.1 with
      | mk a b => simp
    simp only [JValue.obj.sizeOf_spec] at *
    omega

/-- Python `str` / f-string interpolation of a value: strings pass through
unquoted, containers fall back to `repr`. -/
def pyStr : JValue → String
  | .str s => s
  | v => pyRepr v

/-- Update the value at the first occurrence of a key in an association
list, leaving the list unchanged when the key is absent. -/
def updAssoc (m : List (String × JValue)) (k : String) (f : JValue → JValue) :
    List (String × JValue) :=
  match m with
  | [] => []
  | (k', v') :: rest =>
    if k' = k then (k', f v') :: rest else (k', v') :: updAssoc rest k f

/-- Apply an update function under a dict key (identity on non-dicts or
missing keys). -/
def updObjKey (v : JValue) (k : String) (f : JValue → JValue) : JValue :=
  match v with
  | .obj fields => .obj (updAssoc fields k f)
  | other => other

/-- Embedding of `src/utils/openapi_utils.py::_extract_example_text`. -/
def extractExampleText (schema : JValue) : String :=
  if schema.hasKey "example" then
    " Example: " ++ pyStr (schema.jgetD "example" .null)
  else
    match schema.jget "examples" with
    | some (.obj entries) =>
      (entries.findSome? (fun p =>
        match p.2 with
        | .obj exFields =>
          match exFields.lookup "value" with
          | some v => some (" Example: " ++ pyStr v)
          | none => none
        | .str s => some (" Example: " ++ s)
        | _ => none)).getD ""
    | _ => ""

/-- The normalized input schema of a built tool.  The source always builds
the dict `\x7b"type": "object", "properties": ..., "required": ...\x7d`. -/
structure InputSchema where
  type : String
  properties : List (String × JValue)
  required : List String
deriving Repr

/-- Embedding of `mcp.types.Tool` as far as the source populates it. -/
structure Tool where
  name : String
  description : String
  inputSchema : InputSchema
deriving Repr

/-- One iteration of the parameter loop of
`src/tool_generator.py::extract_parameters`.  `none` models a raised
exception (missing/non-string `name`, broken `$ref`, a non-string
description reaching string concatenation, or exhaustion of the example
synthesizer's fuel standing for its unbounded recursion). -/
def extract_parameters_step (spec : JValue) (fuel : Nat)
    (acc : List (String × JValue) × List String) (param : JValue) :
    Option (List (String × JValue) × List String) := do
  let (properties, required) := acc
  let pname ← (param.jget "name").bind JValue.asStr
  let schema := param.jgetD "schema" (.obj [])
  let prop ←
    if schema.hasKey "$ref" then do
      let refStr ← (schema.jget "$ref").bind JValue.asStr
      let refSchema ← resolveRef spec refStr
      let prop0 := JValue.obj
        [("type", refSchema.jgetD "type" (.str "string")), ("title", .str pname)]
      let desc0 : String ←
        match refSchema.jget "description" with
        | none => some ""
        | some (.str s) => some s
        | some v => if v.pyTruthy then none else some ""
      let desc1 :=
        if refSchema.hasKey "enum" then
          desc0 ++ " Possible values: " ++ pyStr (refSchema.jgetD "enum" .null)
        else desc0
      let exText0 := extractExampleText refSchema
      let exText ←
        if exText0 = "" then do
          let gen ← generate_example_from_schema spec fuel refSchema
          some (" Example: " ++ pyStr gen)
        else some exText0
      let desc2 := if exText ≠ "" then desc1 ++ exText else desc1
      some (if desc2 ≠ "" then
              JValue.obj (upsert [("type", refSchema.jgetD "type" (.str "string")),
                                  ("title", .str pname)] "description" (.str desc2))
            else prop0)
    else do
      let prop0 := JValue.obj [("type", schema.jgetD "type" (.str "string"))]
      let descV : JValue :=
        if schema.hasKey "description" then schema.jgetD "description" .null
        else if param.hasKey "description" then param.jgetD "description" .null
        else .str ""
      if schema.hasKey "enum" then do
        let descS ←
          match descV with
          | .str s => some s
          | v => if v.pyTruthy then none else some ""
        let desc := descS ++ " Possible values: " ++ pyStr (schema.jgetD "enum" .null)
        some (if desc ≠ "" then
                JValue.obj (upsert [("type", schema.jgetD "type" (.str "string"))]
                  "description" (.str desc))
              else prop0)
      else
        some (if descV.pyTruthy then
                JValue.obj (upsert [("type", schema.jgetD "type" (.str "string"))]
                  "description" descV)
              else prop0)
  let properties := upsert properties pname prop
  let required :=
    if (param.jgetD "required" .null).pyTruthy then required ++ [pname] else required
  some (properties, required)

/-- The existing description of a media-type object as `extract_body`
starts from it: `""` when absent (the source first assigns `""`), the
string itself when a string, and undefined — `none` — otherwise (the
source raises `TypeError` at `+=`). -/
def descOrEmpty (mfields : List (String × JValue)) : Option String :=
  match mfields.lookup "description" with
  | none => some ""
  | some (.str s) => some s
  | some _ => none

/-- Embedding of `src/tool_generator.py::extract_body`.  The source binds
`properties["body"]` to the spec's own first media-type object and then
mutates that object's `description` in place; here the mutation is explicit
state passing: the result carries the updated properties and required list
plus, when the body branch ran, the media-type key and the updated
media-type object to be written back into the document.  `none` models a
raised exception (empty `content` → `StopIteration`, a non-dict shape, or a
non-string existing description reaching `+=`). -/
def extract_body_impl (operation : JValue)
    (properties : List (String × JValue)) (required : List String) :
    Option (List (String × JValue) × List String × Option (String × JValue)) :=
  let requestBody := operation.jgetD "requestBody" .null
  if requestBody.pyTruthy then
    match requestBody.asObj with
    | none => none
    | some _ =>
      match (requestBody.jgetD "content" (.obj [])).asObj with
      | none => none
      | some contentEntries =>
        match contentEntries.head? with
        | none => none
        | some (firstMediaType, firstSchema) =>
          let exampleOpt : Option String :=
            if firstSchema.hasKey "example" then
              some (jsonDumps (firstSchema.jgetD "example" (.str "\x7b\x7d")))
            else none
          if firstSchema.pyTruthy then
            match firstSchema.asObj with
            | none => none
            | some fields =>
              match descOrEmpty fields with
              | none => none
              | some baseDesc =>
                let annot := " Body Content-Type: " ++ firstMediaType ++
                  (match exampleOpt with
                   | some ex => " Example: " ++ ex
                   | none => "")
                let newSchema :=
                  JValue.obj (upsert fields "description" (.str (baseDesc ++ annot)))
                some (upsert properties "body" newSchema, required ++ ["body"],
                      some (firstMediaType, newSchema))
          else
            some (properties, required, none)
  else
    some (properties, required, none)

/-- Write an updated first media-type object back into the document at
`paths → path → method → requestBody → content → mediaType`, the in-place
mutation performed by `extract_body` through its alias into the spec. -/
def writeBackMedia (spec : JValue) (path methodLower mediaType : String)
    (newSchema : JValue) : JValue :=
  updObjKey spec "paths" (fun p =>
    updObjKey p path (fun pitem =>
      updObjKey pitem methodLower (fun op =>
        updObjKey op "requestBody" (fun rb =>
          updObjKey rb "content" (fun c =>
            updObjKey c mediaType (fun _ => newSchema))))))

/-- Embedding of `src/tool_generator.py::generate_tool_from_operation`.
Returns the built tool together with the (possibly mutated) document —
the source mutates `spec` in place through `extract_body`.  `none` models
any raised exception (path/method not found, broken refs, non-string
fields where `mcp.types.Tool` validation or string operations would
reject them, or example-synthesizer fuel exhaustion). -/
def generate_tool_from_operation (spec : JValue) (path method pfx : String)
    (fuel : Nat) : Option (Tool × JValue) := do
  let paths := spec.jgetD "paths" (.obj [])
  let pathItem := (paths.jget path).getD .null
  if !pathItem.pyTruthy then none else do
  let operation := pathItem.jgetD (pyLower method) .null
  if !operation.pyTruthy then none else do
  let _ ← operation.asObj
  let opIdV := operation.jgetD "operationId" .null
  let baseName ←
    if opIdV.pyTruthy then opIdV.asStr
    else some (pyStripChars ['_'] (pyReplace (method ++ "_" ++ path) "/" "_"))
  let name := if pfx ≠ "" then pfx ++ ":" ++ baseName else baseName
  let descV :=
    if (operation.jgetD "description" .null).pyTruthy then
      operation.jgetD "description" .null
    else if (operation.jgetD "summary" .null).pyTruthy then
      operation.jgetD "summary" .null
    else .str ""
  let description ← descV.asStr
  let params ←
    match operation.jgetD "parameters" (.arr []) with
    | .arr ps => some ps
    | _ => none
  let (props1, req1) ← params.foldlM (extract_parameters_step spec fuel) ([], [])
  let (props2, req2, mutated) ← extract_body_impl operation props1 req1
  let tool : Tool := ⟨name, description, ⟨"object", props2, req2⟩⟩
  let specOut :=
    match mutated with
    | some (mt, newSchema) => writeBackMedia spec path (pyLower method) mt newSchema
    | none => spec
  some (tool, specOut)

/-- Python `s.upper()` (ASCII). -/
def pyUpper (s : String) : String :=
  String.mk (s.toList.map Char.toUpper)

/-- Embedding of the per-action metadata record
`src/tool_caller.py::OperationMeta` (the source misspells the media-type
attribute `conten_media_type`; the name is kept). -/
structure OperationMeta where
  method : String
  path : String
  param_locations : List (String × String)
  required : List String
  conten_media_type : String
  auth_type : String
  service_name : String
deriving Repr

/-- The four registry maps of `OpenAPIToolCaller`. -/
structure CallerState where
  tools : List (String × Tool)
  registry : List (String × OperationMeta)
  tool_base_urls : List (String × String)
  tool_specs : List (String × JValue)
deriving Repr

/-- The empty registry, as after `OpenAPIToolCaller.__init__`'s field
initialisation. -/
def emptyCaller : CallerState := ⟨[], [], [], []⟩

/-- The HTTP-verb whitelist of `_add_tools_from_spec` (seven verbs; the
source omits `trace`). -/
def verbWhitelist : List String :=
  ["get", "post", "put", "delete", "patch", "options", "head"]

/-- Inner value scan of `_add_tools_from_spec::match_any` for one pattern:
Python iterates the values and calls `fnmatch` on each, so a non-string
value raises when reached; `none` models that crash. -/
def matchValsAgainst (pat : String) : List JValue → Option Bool
  | [] => some false
  | .str s :: rest =>
    if fnmatch s pat then some true else matchValsAgainst pat rest
  | _ :: _ => none

/-- Pattern-major loop of `match_any`. -/
def matchAnyLoop (vals : List JValue) : List String → Option Bool
  | [] => some false
  | pat :: prest => do
    let b ← matchValsAgainst pat vals
    if b then some true else matchAnyLoop vals prest

/-- What Python iteration over the tag container yields: list elements,
string characters (as one-character strings), or dict keys; `none` models
the `TypeError` on a non-iterable. -/
def iterVals : JValue → Option (List JValue)
  | .arr xs => some xs
  | .str s => some (s.toList.map (fun c => JValue.str (String.mk [c])))
  | .obj fields => some (fields.map (fun p => JValue.str p.1))
  | _ => none

/-- Embedding of `_add_tools_from_spec::match_any`: false when the pattern
list or the value container is falsy, else a pattern-major, value-inner
scan with shell-glob matching. -/
def match_any (valsV : JValue) (patterns : List String) : Option Bool :=
  if patterns.isEmpty || !valsV.pyTruthy then some false
  else do
    let vals ← iterVals valsV
    matchAnyLoop vals patterns

/-- Embedding of `_add_tools_from_spec::match_path`. -/
def match_path (path : String) (patterns : List String) : Bool :=
  if patterns.isEmpty then false
  else patterns.any (fun pat => fnmatch path pat)

/-- One iteration of the inner method loop of `_add_tools_from_spec`,
threading the current (possibly mutated) document.  `some` with an
unchanged state models every `continue`; `none` models an uncaught
exception escaping registry construction (e.g. the unguarded
`next(iter(content))` on an operation whose request body has no content).
Filters are applied in the source's order — include-paths, exclude-paths,
include-tags, exclude-tags — each `continue`-ing on failure before the
tool is built. -/
def processMethod (pfx base_url service_name auth_type : String)
    (include_tags exclude_tags include_paths exclude_paths : List String)
    (fuel : Nat) (path method : String) (st : CallerState) (spec : JValue) :
    Option (CallerState × JValue) :=
  if !(verbWhitelist.contains (pyLower method)) then some (st, spec) else
  let pathItem := ((spec.jgetD "paths" (.obj [])).jget path).getD .null
  let operation := (pathItem.jget method).getD .null
  let opTags := operation.jgetD "tags" (.arr [])
  match operation.asObj with
  | none => none
  | some _ =>
    if !include_paths.isEmpty && !(match_path path include_paths) then some (st, spec) else
    if !exclude_paths.isEmpty && match_path path exclude_paths then some (st, spec) else
    match (if !include_tags.isEmpty then match_any opTags include_tags else some true) with
    | none => none
    | some inclTagOk =>
      if !inclTagOk then some (st, spec) else
      match (if !exclude_tags.isEmpty then match_any opTags exclude_tags else some false) with
      | none => none
      | some exclTagHit =>
        if exclTagHit then some (st, spec) else
        match generate_tool_from_operation spec path method pfx fuel with
        | none => some (st, spec)
        | some (tool, spec2) =>
          match operation.jgetD "parameters" (.arr []) with
          | .arr ps =>
            let paramLocations := ps.foldl
              (fun m param =>
                let pname := ((param.jget "name").bind JValue.asStr).getD ""
                let loc :=
                  match param.jget "in" with
                  | some (.str s) => s
                  | some _ => "<non-string location>"
                  | none => "query"
                upsert m pname loc)
              ([] : List (String × String))
            match
              (if operation.hasKey "requestBody" then
                match (operation.jgetD "requestBody" .null).asObj with
                | none => none
                | some _ =>
                  match ((operation.jgetD "requestBody" .null).jgetD "content"
                      (.obj [])).asObj with
                  | none => none
                  | some contentEntries =>
                    match contentEntries.head? with
                    | none => none
                    | some (mt, _) => some (upsert paramLocations "body" "body", mt)
              else some (paramLocations, "application/json"))
            with
            | none => none
            | some (paramLocations2, contentMediaType) =>
              some (⟨upsert st.tools tool.name tool,
                     upsert st.registry tool.name
                       ⟨pyUpper method, path, paramLocations2,
                        tool.inputSchema.required, contentMediaType, auth_type,
                        service_name⟩,
                     upsert st.tool_base_urls tool.name base_url,
                     upsert st.tool_specs tool.name spec2⟩, spec2)
          | _ => none

/-- The inner method loop over one path item's keys. -/
def foldMethods (pfx base_url service_name auth_type : String)
    (include_tags exclude_tags include_paths exclude_paths : List String)
    (fuel : Nat) (path : String) :
    List String → (CallerState × JValue) → Option (CallerState × JValue)
  | [], acc => some acc
  | m :: rest, acc => do
    let acc' ← processMethod pfx base_url service_name auth_type
      include_tags exclude_tags include_paths exclude_paths fuel path m acc.1 acc.2
    foldMethods pfx base_url service_name auth_type
      include_tags exclude_tags include_paths exclude_paths fuel path rest acc'

/-- The outer path loop of `_add_tools_from_spec`.  Method keys are
captured at loop entry (the in-place mutations performed while building
tools change only nested description values, never the key structure); a
string path item iterates its characters, none of which is a verb, and a
path item of any other non-dict shape crashes the construction. -/
def foldPaths (pfx base_url service_name auth_type : String)
    (include_tags exclude_tags include_paths exclude_paths : List String)
    (fuel : Nat) :
    List (String × JValue) → (CallerState × JValue) → Option (CallerState × JValue)
  | [], acc => some acc
  | (path, pitemV) :: rest, acc => do
    let methodKeys ←
      match pitemV with
      | .obj entries => some (keysOf entries)
      | .str s => some (s.toList.map (fun c => String.mk [c]))
      | _ => none
    let acc' ← foldMethods pfx base_url service_name auth_type
      include_tags exclude_tags include_paths exclude_paths fuel path methodKeys acc
    foldPaths pfx base_url service_name auth_type
      include_tags exclude_tags include_paths exclude_paths fuel rest acc'

/-- Embedding of `OpenAPIToolCaller._add_tools_from_spec` for one loaded
document: returns the updated registry state and the (possibly mutated)
document, or `none` when an uncaught exception escapes. -/
def addToolsFromSpec (pfx base_url service_name auth_type : String)
    (include_tags exclude_tags include_paths exclude_paths : List String)
    (fuel : Nat) (st : CallerState) (spec : JValue) :
    Option (CallerState × JValue) := do
  let _ ← spec.asObj
  let pathsEntries ← (spec.jgetD "paths" (.obj [])).asObj
  foldPaths pfx base_url service_name auth_type
    include_tags exclude_tags include_paths exclude_paths fuel
    pathsEntries (st, spec)

/-- One Specification Binding as `OpenAPIToolCaller.__init__` consumes it.
`loadResult` models the external document loader's outcome for
`file_location`; `base_url` is the binding's effective base address after
the source's two-step resolution (own attribute, else configuration
lookup), with `""` modelling "neither resolves" (Python falsy). -/
structure OpenAPISpecCfg where
  service_name : String
  pfx : String
  auth_type : String
  base_url : String
  include_tags : List String
  exclude_tags : List String
  include_paths : List String
  exclude_paths : List String
  loadResult : Option JValue

/-- Embedding of the binding loop of `OpenAPIToolCaller.__init__`: a failed
load or a missing base address skips the binding; an exception escaping
`_add_tools_from_spec` aborts construction (`none`). -/
def initCaller (fuel : Nat) : List OpenAPISpecCfg → CallerState → Option CallerState
  | [], st => some st
  | cfg :: rest, st =>
    match cfg.loadResult with
    | none => initCaller fuel rest st
    | some spec =>
      if cfg.base_url = "" then initCaller fuel rest st
      else do
        let (st', _) ← addToolsFromSpec cfg.pfx cfg.base_url cfg.service_name
          cfg.auth_type cfg.include_tags cfg.exclude_tags cfg.include_paths
          cfg.exclude_paths fuel st spec
        initCaller fuel rest st'

/-- A transport-level HTTP response as the `requests` boundary delivers it:
status code, body text, and the outcome of attempting `resp.json()`
(`none` when the body does not parse as JSON). -/
structure HttpResponse where
  status : Nat
  text : String
  json : Option JValue
deriving Repr

/-- The failure taxonomy of one dispatch, one constructor per raise site of
`call_tool` (in the source most carry `ValueError` with the quoted
message). -/
inductive CallError where
  | unknownTool (name : String)
  | missingRequired (argName : String)
  | noBaseUrl (name : String)
  | attachmentNotString
  | attachmentOpenFailed (path : String)
  | authError (msg : String)
  | pyError (msg : String)
  | transportError
  | httpStatusError (status : Nat) (body : String)
deriving Repr, DecidableEq

/-- A successful dispatch outcome: the parsed JSON value, or the raw
response text when the body is not JSON. -/
inductive CallResult where
  | json (v : JValue)
  | text (s : String)
deriving Repr

/-- Observable side effects of one dispatch, in order of occurrence. -/
inductive Effect where
  | openFile (path : String)
  | closeFile (path : String)
  | httpSend
deriving Repr, DecidableEq

/-- Embedding of `requests.Response.raise_for_status`: an `HTTPError`
carrying the status and body exactly for 4xx and 5xx statuses. -/
def raise_for_status (resp : HttpResponse) : Option CallError :=
  if 400 ≤ resp.status ∧ resp.status < 600 then
    some (.httpStatusError resp.status resp.text)
  else none

/-- Embedding of `call_tool`'s response normalisation (source lines
362–366): `raise_for_status`, then `resp.json()` with the raw text as the
fallback when JSON parsing raises. -/
def processResponse (resp : HttpResponse) : Except CallError CallResult :=
  match raise_for_status resp with
  | some e => .error e
  | none =>
    match resp.json with
    | some v => .ok (.json v)
    | none => .ok (.text resp.text)

/-- Embedding of `OpenAPIToolCaller.create_headers`: the auth header from
the external credential resolver, a content-type header derived from the
action's media type, and the caller-supplied headers, merged with Python
dict-merge semantics exactly as written in the source:
`headers = \x7b**headers, **content_type_header\x7d` then
`\x7b**auth_header, **headers\x7d`. -/
def create_headers
    (getAuth : String → String → Except String (List (String × JValue)))
    (meta : OperationMeta) (headers : List (String × JValue)) :
    Except String (List (String × JValue)) := do
  let auth_header ← getAuth meta.auth_type meta.service_name
  let content_type_header := [("Content-Type", JValue.str meta.conten_media_type)]
  let headers := dictMerge headers content_type_header
  pure (if !headers.isEmpty then dictMerge auth_header headers else auth_header)

/-- Python `os.path.isabs`. -/
def isAbsPath (p : String) : Bool :=
  match p.toList with
  | '/' :: _ => true
  | _ => false

/-- Python `os.path.join(cwd, p)` for a relative `p`. -/
def joinPath (cwd p : String) : String :=
  match cwd.toList.reverse with
  | '/' :: _ => cwd ++ p
  | _ => cwd ++ "/" ++ p

/-- Python `os.path.basename`. -/
def basename (p : String) : String :=
  (pySplit '/' p).getLastD ""

/-- Non-attachment body entries as multipart form fields, with escaped
newline sequences un-escaped in string values (source lines 335–342). -/
def bodyFieldsToForm (fields : List (String × JValue)) : List (String × JValue) :=
  fields.filterMap (fun kv =>
    if kv.1 == "attachment" then none
    else match kv.2 with
      | .str s => some (kv.1, JValue.str (pyReplace s "\\n" "\n"))
      | v => some (kv.1, v))

/-- One opened multipart file part: form field name, upload filename,
resolved path standing for the open handle, and guessed media type. -/
structure FilePart where
  field : String
  filename : String
  handlePath : String
  mime : String
deriving Repr, DecidableEq

/-- The attachment loop of `call_tool` (source lines 318–331): resolve each
path, guess its media type, and open it, accumulating effects for each
successful open.  A non-string entry or a failed open raises at that point
— the handles already opened are NOT closed here; the `try/finally` that
closes them only begins after this loop. -/
def openAttachments (fs : String → Bool) (guessMime : String → Option String)
    (cwd : String) :
    List JValue → List Effect → List FilePart →
    Except (CallError × List Effect) (List Effect × List FilePart)
  | [], effs, files => .ok (effs, files)
  | v :: rest, effs, files =>
    match v with
    | .str fp =>
      let resolved := if isAbsPath fp then fp else joinPath cwd fp
      let mime := (guessMime (basename resolved)).getD "application/octet-stream"
      if fs resolved then
        openAttachments fs guessMime cwd rest (effs ++ [.openFile resolved])
          (files ++ [⟨"attachment", basename resolved, resolved, mime⟩])
      else
        .error (.attachmentOpenFailed resolved, effs)
    | _ => .error (.attachmentNotString, effs)

/-- The outbound request as handed to the transport. -/
structure RequestData where
  method : String
  url : String
  params : Option (List (String × JValue))
  headers : List (String × JValue)
  jsonBody : Option JValue
  dataBody : Option JValue
  files : List FilePart
deriving Repr

/-- The send phase of `call_tool` (source lines 351–366): the send attempt,
the `finally` that closes every opened file handle, then
`raise_for_status` and the JSON-or-text result. -/
def finishRequest (send : Except Unit HttpResponse)
    (pr : RequestData × List Effect) :
    Except CallError CallResult × List Effect :=
  let closes := pr.1.files.map (fun f => Effect.closeFile f.handlePath)
  let trace := pr.2 ++ [Effect.httpSend] ++ closes
  match send with
  | .error _ => (.error .transportError, trace)
  | .ok resp => (processResponse resp, trace)

/-- The encoding-and-send phase of `call_tool` (source lines 263–366,
after validation and base-URL lookup): path substitution, query/header/body
partitioning, header construction, content-type–specific body encoding
(including the attachment loop), then `finishRequest`. -/
def encodeAndSend
    (getAuth : String → String → Except String (List (String × JValue)))
    (fs : String → Bool) (guessMime : String → Option String) (cwd : String)
    (send : Except Unit HttpResponse) (meta : OperationMeta) (base_url : String)
    (arguments : List (String × JValue)) :
    Except CallError CallResult × List Effect :=
  let url0 := pyRstrip ['/'] base_url ++ meta.path
  -- Partition arguments by declared location (unknown keys → query).
  let locOf := fun pname => (meta.param_locations.lookup pname).getD "query"
  let path_params := arguments.filter (fun kv => locOf kv.1 == "path")
  let query_params := arguments.filter (fun kv => locOf kv.1 == "query")
  let headerArgs := arguments.filter (fun kv => locOf kv.1 == "header")
  let bodyArgs := arguments.filter (fun kv => locOf kv.1 == "body")
  let req_body : JValue :=
    match arguments.lookup "body" with
    | some v => v
    | none => .obj bodyArgs
  let url := path_params.foldl
    (fun u kv => pyReplace u ("\x7b" ++ kv.1 ++ "\x7d") (pyStr kv.2)) url0
  match create_headers getAuth meta headerArgs with
  | .error e => (.error (.authError e), [])
  | .ok req_headers =>
    let ct0 := pyLower meta.conten_media_type
    let content_type := if ct0 = "" then "application/json" else ct0
    let base : RequestData :=
      ⟨meta.method, url,
       (if !query_params.isEmpty then some query_params else none),
       req_headers, none, none, []⟩
    let encoded : Except (CallError × List Effect) (RequestData × List Effect) :=
      if content_type = "application/json" then
        .ok ({ base with jsonBody := if req_body.pyTruthy then some req_body else none }, [])
      else if content_type = "application/x-www-form-urlencoded" then
        .ok ({ base with dataBody := if req_body.pyTruthy then some req_body else none }, [])
      else if content_type = "multipart/form-data" then
        match req_body.asObj with
        | none => .error (.pyError "req_body has no attribute get", [])
        | some bodyFields =>
          let att := (req_body.jget "attachment").getD .null
          if !att.pyTruthy then
            .ok ({ base with
                    headers := upsert req_headers "Content-Type"
                      (.str "application/x-www-form-urlencoded"),
                    dataBody := if req_body.pyTruthy then some req_body else none }, [])
          else
            let attList := match att with | .arr xs => xs | v => [v]
            match openAttachments fs guessMime cwd attList [] [] with
            | .error (e, effs) => .error (e, effs)
            | .ok (effs, files) =>
              let formFields := bodyFieldsToForm bodyFields
              .ok ({ base with
                      headers := delAssoc req_headers "Content-Type",
                      dataBody := if !formFields.isEmpty then some (.obj formFields) else none,
                      files := files }, effs)
      else
        .ok (base, [])
    match encoded with
    | .error (e, effs) => (.error e, effs)
    | .ok pr => finishRequest send pr

/-- Embedding of `OpenAPIToolCaller.call_tool`.  External collaborators are
parameters: `getAuth` models `get_auth_header`, `fs` models whether
`open(path, "rb")` succeeds, `guessMime` models `mimetypes.guess_type` on
the basename, `send` models the transport outcome of `Session.send`.  The
returned trace lists file opens, the send attempt, and file closes in
order of occurrence. -/
def call_tool
    (getAuth : String → String → Except String (List (String × JValue)))
    (fs : String → Bool) (guessMime : String → Option String) (cwd : String)
    (send : Except Unit HttpResponse)
    (c : CallerState) (tool_name : String) (arguments : List (String × JValue)) :
    Except CallError CallResult × List Effect :=
  match c.tools.lookup tool_name, c.registry.lookup tool_name with
  | some tool, some meta =>
    -- Validate required arguments: first missing one raises.
    (match tool.inputSchema.required.find? (fun r => !(containsKey arguments r)) with
     | some r => (.error (.missingRequired r), [])
     | none =>
      -- Base URL
      (match ((c.tool_base_urls.lookup tool_name).getD "") == "" with
       | true => (.error (.noBaseUrl tool_name), [])
       | false =>
        encodeAndSend getAuth fs guessMime cwd send meta
          ((c.tool_base_urls.lookup tool_name).getD "") arguments))
  | _, _ => (.error (.unknownTool tool_name), [])

/-- A registered JSON-body action used to exercise header construction. -/
def sampleJsonMeta : OperationMeta :=
  ⟨"POST", "/x", [], [], "application/json", "basic", "svc"⟩

/-- A tool with one required path parameter `id`, with its registry
entries, as the round-trip example of the spec builds it. -/
def toolWithId : Tool :=
  ⟨"t", "", ⟨"object", [("id", JValue.obj [("type", JValue.str "string")])], ["id"]⟩⟩

/-- Operation metadata for `toolWithId`. -/
def metaWithId : OperationMeta :=
  ⟨"GET", "/u/\x7bid\x7d", [("id", "path")], ["id"], "application/json", "basic", "svc"⟩

/-- A one-action registry around `toolWithId`. -/
def callerWithId : CallerState :=
  ⟨[("t", toolWithId)], [("t", metaWithId)], [("t", "http://h")], [("t", JValue.obj [])]⟩

/-- A registered multipart action taking only a body. -/
def toolMultipart : Tool := ⟨"m", "", ⟨"object", [], ["body"]⟩⟩

/-- Operation metadata for `toolMultipart`. -/
def metaMultipart : OperationMeta :=
  ⟨"POST", "/up", [("body", "body")], ["body"], "multipart/form-data", "basic", "svc"⟩

/-- A one-action registry around `toolMultipart`. -/
def callerMultipart : CallerState :=
  ⟨[("m", toolMultipart)], [("m", metaMultipart)], [("m", "http://h")], [("m", JValue.obj [])]⟩

/-- Claim C1: the claim (and the source's own comment) says caller-supplied
headers take precedence over the derived content-type header, but the
source merges `\x7b**headers, **content_type_header\x7d`, so the derived
content-type overrides a caller-supplied `Content-Type`.  Evaluated at the
failing input: the action's media type is `application/json`, the caller
supplies `Content-Type: text/csv`, and the outgoing value is the derived
`application/json`, not the caller's. -/
theorem create_headers_derived_content_type_wins :
    create_headers (fun _ _ => .ok [("Authorization", JValue.str "Basic x")])
        sampleJsonMeta [("Content-Type", JValue.str "text/csv")]
      = .ok [("Authorization", JValue.str "Basic x"),
             ("Content-Type", JValue.str "application/json")]
    ∧ ∀ hs, create_headers (fun _ _ => .ok [("Authorization", JValue.str "Basic x")])
        sampleJsonMeta [("Content-Type", JValue.str "text/csv")] = .ok hs →
        hs.lookup "Content-Type" = some (JValue.str "application/json") := by
  refine ⟨rfl, ?_⟩
  intro hs h
  cases h
  rfl

/-- Claim C2: when a required field of the action's input schema is absent
from the arguments, dispatch fails with the validation error naming the
first absent required field in declaration order, and the effect trace is
empty — no HTTP request is made and no attachment file is opened. -/
theorem call_tool_missing_required_first (getAuth : String → String → Except String (List (String × JValue)))
    (fs : String → Bool) (guessMime : String → Option String) (cwd : String)
    (send : Except Unit HttpResponse) (c : CallerState) (tool_name : String)
    (arguments : List (String × JValue)) (tool : Tool) (meta : OperationMeta)
    (missing : String)
    (htool : c.tools.lookup tool_name = some tool)
    (hmeta : c.registry.lookup tool_name = some meta)
    (hfind : tool.inputSchema.required.find? (fun r => !(containsKey arguments r))
      = some missing) :
    call_tool getAuth fs guessMime cwd send c tool_name arguments
      = (.error (.missingRequired missing), []) := by
  unfold call_tool
  rw [htool, hmeta]
  simp only [hfind]

/-- Witness for C2: omitting `id` for an action requiring `id` fails with
the validation error naming `id`, before any effect. -/
theorem call_tool_missing_required_first_witness :
    callerWithId.tools.lookup "t" = some toolWithId ∧
    callerWithId.registry.lookup "t" = some metaWithId ∧
    toolWithId.inputSchema.required.find?
      (fun r => !(containsKey ([("limit", JValue.int 1)] : List (String × JValue)) r))
      = some "id" ∧
    call_tool (fun _ _ => .ok []) (fun _ => true) (fun _ => none) "/cwd" (.error ())
        callerWithId "t" [("limit", JValue.int 1)]
      = (.error (.missingRequired "id"), []) :=
  ⟨rfl, rfl, rfl,
   call_tool_missing_required_first (fun _ _ => .ok []) (fun _ => true) (fun _ => none)
     "/cwd" (.error ()) callerWithId "t" [("limit", JValue.int 1)] toolWithId metaWithId
     "id" rfl rfl rfl⟩

/-- Claim C3: the claim says every opened attachment handle is closed on
every exit path, including a failure while opening a later attachment in
the same list.  The source only closes handles in the `finally` around the
send (so success and transport failure do close them — second conjunct),
but the opening loop runs before that `try`, so when the second attachment
fails to open, the already-opened first handle is never closed (first
conjunct: the trace has an open of `/a.bin` and no close). -/
theorem call_tool_attachment_leak_on_open_failure :
    call_tool (fun _ _ => .ok []) (fun p => p == "/a.bin") (fun _ => none) "/cwd"
        (.error ()) callerMultipart "m"
        [("body", JValue.obj [("attachment", JValue.arr [.str "/a.bin", .str "/b.bin"])])]
      = (.error (.attachmentOpenFailed "/b.bin"), [.openFile "/a.bin"])
    ∧ call_tool (fun _ _ => .ok []) (fun _ => true) (fun _ => none) "/cwd"
        (.error ()) callerMultipart "m"
        [("body", JValue.obj [("attachment", JValue.arr [.str "/a.bin", .str "/b.bin"])])]
      = (.error .transportError,
         [.openFile "/a.bin", .openFile "/b.bin", .httpSend,
          .closeFile "/a.bin", .closeFile "/b.bin"]) :=
  ⟨rfl, rfl⟩

/-- The three-operation document of the spec's filtering example:
operations tagged `\x7bA,B\x7d`, `\x7bB,C\x7d`, `\x7bC,D\x7d`. -/
def specTagged : JValue := .obj [("openapi", .str "3.0.0"), ("paths", .obj [
  ("/foo", .obj [("get", .obj [("operationId", .str "getFoo"),
    ("tags", .arr [.str "A", .str "B"]), ("parameters", .arr [])])]),
  ("/bar", .obj [("post", .obj [("operationId", .str "postBar"),
    ("tags", .arr [.str "B", .str "C"]), ("parameters", .arr [])])]),
  ("/baz", .obj [("get", .obj [("operationId", .str "getBaz"),
    ("tags", .arr [.str "C", .str "D"]), ("parameters", .arr [])])])])]

/-- A binding over `specTagged` with the given four filters. -/
def taggedCfg (it et ip ep : List String) : OpenAPISpecCfg :=
  ⟨"test", "test", "", "https://dummy.api", it, et, ip, ep, some specTagged⟩

/-- Claim C4: registry construction applies the four shell-glob filters in
the source's order; on the three operations tagged `\x7bA,B\x7d`,
`\x7bB,C\x7d`, `\x7bC,D\x7d`, `include_tags=["C"]` registers exactly the
second and third, and `exclude_tags=["B"]` registers exactly the third. -/
theorem filter_scenario_tagged_operations :
    (initCaller 1 [taggedCfg ["C"] [] [] []] emptyCaller).map (fun st => keysOf st.tools)
      = some ["test:postBar", "test:getBaz"]
    ∧ (initCaller 1 [taggedCfg [] ["B"] [] []] emptyCaller).map (fun st => keysOf st.tools)
      = some ["test:getBaz"] :=
  ⟨rfl, rfl⟩

/-- A document whose only operation sits under the eighth standard verb,
`trace`. -/
def specTraceOnly : JValue := .obj [("paths", .obj [
  ("/t", .obj [("trace", .obj [("operationId", .str "traceIt"),
    ("parameters", .arr [])])])])]

/-- A binding over `specTraceOnly` with no filters. -/
def traceOnlyCfg : OpenAPISpecCfg :=
  ⟨"s", "p", "", "http://h", [], [], [], [], some specTraceOnly⟩

/-- Claim C5 counterexample: the claim says operations under any of the
eight standard HTTP verbs are considered, but the source's whitelist has
only seven (no `trace`): a `trace` operation that passes all filters and
builds successfully (first conjunct) is nevertheless not registered
(second conjunct). -/
theorem trace_operation_not_registered :
    (generate_tool_from_operation specTraceOnly "/t" "trace" "p" 1).isSome = true
    ∧ (initCaller 1 [traceOnlyCfg] emptyCaller).map (fun st => keysOf st.tools)
      = some [] :=
  ⟨rfl, rfl⟩

/-- A document with one well-formed operation under each of the eight
standard HTTP verbs. -/
def specAllVerbs : JValue := .obj [("paths", .obj [
  ("/a", .obj [
    ("get", .obj [("operationId", .str "opGet"), ("parameters", .arr [])]),
    ("post", .obj [("operationId", .str "opPost"), ("parameters", .arr [])]),
    ("put", .obj [("operationId", .str "opPut"), ("parameters", .arr [])]),
    ("delete", .obj [("operationId", .str "opDelete"), ("parameters", .arr [])]),
    ("patch", .obj [("operationId", .str "opPatch"), ("parameters", .arr [])]),
    ("options", .obj [("operationId", .str "opOptions"), ("parameters", .arr [])]),
    ("head", .obj [("operationId", .str "opHead"), ("parameters", .arr [])]),
    ("trace", .obj [("operationId", .str "opTrace"), ("parameters", .arr [])])])])]

/-- A binding over `specAllVerbs` with no filters. -/
def allVerbsCfg : OpenAPISpecCfg :=
  ⟨"s", "", "", "http://h", [], [], [], [], some specAllVerbs⟩

/-- Claim C5 as amended: registry construction considers exactly the
seven-verb whitelist `get, post, put, delete, patch, options, head`
(matched case-insensitively); an entry under any other path-item key —
including `trace` — leaves the registry state unchanged, and a document
with one operation under each of the eight standard verbs registers
exactly the seven non-`trace` ones. -/
theorem registry_considers_seven_verbs :
    (∀ (pfx base_url service_name auth_type : String)
       (it et ip ep : List String) (fuel : Nat) (path method : String)
       (st : CallerState) (spec : JValue),
       verbWhitelist.contains (pyLower method) = false →
       processMethod pfx base_url service_name auth_type it et ip ep fuel
         path method st spec = some (st, spec))
    ∧ (initCaller 1 [allVerbsCfg] emptyCaller).map (fun st => keysOf st.tools)
      = some ["opGet", "opPost", "opPut", "opDelete", "opPatch", "opOptions", "opHead"] := by
  refine ⟨?_, rfl⟩
  intro pfx base_url service_name auth_type it et ip ep fuel path method st spec h
  unfold processMethod
  rw [h]
  rfl

/-- Witness for C5's amended theorem: a `summary` key of a path item (not
an HTTP verb) leaves the state unchanged. -/
theorem registry_considers_seven_verbs_witness :
    verbWhitelist.contains (pyLower "summary") = false ∧
    processMethod "p" "http://h" "s" "" [] [] [] [] 1 "/a" "summary"
      emptyCaller specAllVerbs = some (emptyCaller, specAllVerbs) :=
  ⟨rfl, registry_considers_seven_verbs.1 "p" "http://h" "s" "" [] [] [] [] 1 "/a"
    "summary" emptyCaller specAllVerbs rfl⟩

/-- Claim C6: the example synthesizer resolves a node by the first matching
rule in the fixed order.  First conjunct: an explicit `example` wins for
any node without a root `$ref`, regardless of everything else in the node
(in particular its `type`).  Second conjunct: the object schema with
properties `a : integer`, `b : string` and no examples/defaults/enums
synthesizes to exactly the mapping with `a = 0`, `b = "string"`. -/
theorem generate_example_resolution_order :
    (∀ (spec : JValue) (fuel : Nat) (fields : List (String × JValue)) (v : JValue),
      fields.lookup "$ref" = none →
      fields.lookup "example" = some v →
      generate_example_from_schema spec (fuel + 1) (.obj fields) = some v)
    ∧ (∀ spec : JValue, generate_example_from_schema spec 4
        (.obj [("type", .str "object"),
               ("properties", .obj [("a", .obj [("type", .str "integer")]),
                                    ("b", .obj [("type", .str "string")])])])
        = some (.obj [("a", .int 0), ("b", .str "string")])) := by
  constructor
  · intro spec fuel fields v href hex
    simp [generate_example_from_schema, generateExampleAux, JValue.hasKey,
      JValue.jget, JValue.asObj, href, hex]
  · intro spec
    rfl

/-- Witness for C6: a node carrying both an explicit `example` and a
conflicting `type` returns the example verbatim. -/
theorem generate_example_resolution_order_witness :
    ([("example", JValue.str "hi"), ("type", JValue.str "integer")].lookup "$ref"
        = (none : Option JValue)) ∧
    generate_example_from_schema (.obj []) 1
      (.obj [("example", .str "hi"), ("type", .str "integer")]) = some (.str "hi") :=
  ⟨rfl, generate_example_resolution_order.1 (.obj []) 0
    [("example", JValue.str "hi"), ("type", JValue.str "integer")] (.str "hi") rfl rfl⟩

/-- An operation that declares a request body whose first (and only)
media-type object is the empty dict. -/
def specEmptyMediaObj : JValue := .obj [("paths", .obj [
  ("/e", .obj [("post", .obj [("operationId", .str "doE"),
    ("requestBody", .obj [("required", .bool true),
      ("content", .obj [("application/json", .obj [])])])])])])]

/-- Claim C7 counterexample: the claim says every operation declaring a
request body gets `"body"` in its required list, but the source guards the
whole body branch with the truthiness of the first media-type object
(`if first_schema:`), so for a declared request body whose first media-type
object is empty the built descriptor's required list is empty — no
`"body"`. -/
theorem body_not_required_for_empty_media_object :
    (((specEmptyMediaObj.jgetD "paths" .null).jgetD "/e" .null).jgetD "post" .null).hasKey
        "requestBody" = true
    ∧ (generate_tool_from_operation specEmptyMediaObj "/e" "post" "" 1).map
        (fun p => p.1.inputSchema.required) = some [] :=
  ⟨rfl, rfl⟩

/-- Claim C7 as amended: whenever the operation declares a (truthy) request
body whose first media-type object is a non-empty dict (with a
string-or-absent description), `"body"` is appended to the required list —
regardless of the request body's own `required` flag, which the builder
never reads (the request-body dict here is arbitrary). -/
theorem extract_body_marks_body_required (operation : JValue)
    (props : List (String × JValue)) (req : List String)
    (rbFields centries mfields : List (String × JValue))
    (mt : String) (mobj : JValue) (desc : String)
    (htr : (operation.jgetD "requestBody" .null).pyTruthy = true)
    (hrbo : (operation.jgetD "requestBody" .null).asObj = some rbFields)
    (hc : ((operation.jgetD "requestBody" .null).jgetD "content" (.obj [])).asObj
      = some centries)
    (hhead : centries.head? = some (mt, mobj))
    (hmtr : mobj.pyTruthy = true)
    (hmo : mobj.asObj = some mfields)
    (hdesc : descOrEmpty mfields = some desc) :
    ∃ props' mutated,
      extract_body_impl operation props req = some (props', req ++ ["body"], mutated) := by
  simp only [extract_body_impl, htr, hrbo, hc, hhead, hmtr, hmo, hdesc, if_true]
  simp

/-- Witness for C7's amended theorem: a request body explicitly marked
`required: false` still yields `"body"` in the required list. -/
theorem extract_body_marks_body_required_witness :
    (extract_body_impl
      (.obj [("requestBody", .obj [("required", .bool false),
        ("content", .obj [("application/json",
          .obj [("schema", .obj [("type", .str "object")])])])])])
      [] []).map (fun t => t.2.1) = some ["body"] := by
  obtain ⟨props', mutated, h⟩ := extract_body_marks_body_required
    (.obj [("requestBody", .obj [("required", .bool false),
      ("content", .obj [("application/json",
        .obj [("schema", .obj [("type", .str "object")])])])])])
    [] []
    [("required", JValue.bool false),
     ("content", JValue.obj [("application/json",
       JValue.obj [("schema", JValue.obj [("type", JValue.str "object")])])])]
    [("application/json", JValue.obj [("schema", JValue.obj [("type", JValue.str "object")])])]
    [("schema", JValue.obj [("type", JValue.str "object")])]
    "application/json"
    (.obj [("schema", .obj [("type", .str "object")])])
    ""
    rfl rfl rfl rfl rfl rfl rfl
  rw [h]
  rfl

/-- The annotation `extract_body` appends to the media-type object's
description: the content type, then the `json.dumps`-rendered explicit
example when one exists. -/
def bodyAnnotation (mt : String) (mfields : List (String × JValue)) : String :=
  " Body Content-Type: " ++ mt ++
    (match mfields.lookup "example" with
     | some v => " Example: " ++ jsonDumps v
     | none => "")

/-- Claim C9 counterexample: the claim says that whenever the operation
declares a request body the builder mutates the document, but for a
declared request body whose first media-type object is empty the builder
returns the document unchanged (and no `body` property exists at all). -/
theorem no_mutation_for_empty_media_object :
    (generate_tool_from_operation specEmptyMediaObj "/e" "post" "" 1).map Prod.snd
      = some specEmptyMediaObj
    ∧ (generate_tool_from_operation specEmptyMediaObj "/e" "post" "" 1).map
        (fun p => p.1.inputSchema.properties.lookup "body") = some none :=
  ⟨rfl, rfl⟩

/-- A document with one operation declaring a JSON request body whose
media-type object has a schema and no description. -/
def specWithBody : JValue := .obj [("paths", .obj [
  ("/b", .obj [("post", .obj [("operationId", .str "doB"),
    ("requestBody", .obj [("content", .obj [("application/json",
      .obj [("schema", .obj [("type", .str "object")])])])])])])])]

/-- Claim C9 as amended: when the declared request body's first media-type
object is a non-empty dict (with a string-or-absent description), building
the descriptor is not read-only: first conjunct — `extract_body` appends
the content-type (and example) annotation to that object's description and
the descriptor's `body` property is the very object written back into the
document (the value-level consequence of the source's aliasing); second
and third conjuncts — building the same operation twice appends the
annotation twice to the document's schema node. -/
theorem extract_body_mutates_document :
    (∀ (operation : JValue) (props : List (String × JValue)) (req : List String)
       (rbFields centries mfields : List (String × JValue)) (mt desc : String),
      (operation.jgetD "requestBody" .null).pyTruthy = true →
      (operation.jgetD "requestBody" .null).asObj = some rbFields →
      ((operation.jgetD "requestBody" .null).jgetD "content" (.obj [])).asObj
        = some centries →
      centries.head? = some (mt, .obj mfields) →
      (JValue.obj mfields).pyTruthy = true →
      descOrEmpty mfields = some desc →
      extract_body_impl operation props req =
        some (upsert props "body"
                (.obj (upsert mfields "description"
                  (.str (desc ++ bodyAnnotation mt mfields)))),
              req ++ ["body"],
              some (mt, .obj (upsert mfields "description"
                (.str (desc ++ bodyAnnotation mt mfields))))))
    ∧ (generate_tool_from_operation specWithBody "/b" "post" "" 1).map
        (fun p => ((((((p.2.jgetD "paths" .null).jgetD "/b" .null).jgetD "post"
          .null).jgetD "requestBody" .null).jgetD "content" .null).jgetD
          "application/json" .null).jget "description")
      = some (some (.str " Body Content-Type: application/json"))
    ∧ ((generate_tool_from_operation specWithBody "/b" "post" "" 1).bind
        (fun p => generate_tool_from_operation p.2 "/b" "post" "" 1)).map
        (fun p => ((((((p.2.jgetD "paths" .null).jgetD "/b" .null).jgetD "post"
          .null).jgetD "requestBody" .null).jgetD "content" .null).jgetD
          "application/json" .null).jget "description")
      = some (some (.str
          " Body Content-Type: application/json Body Content-Type: application/json")) := by
  refine ⟨?_, rfl, rfl⟩
  intro operation props req rbFields centries mfields mt desc htr hrbo hc hhead hmtr hdesc
  have hhk : (JValue.obj mfields).hasKey "example"
      = (mfields.lookup "example").isSome := rfl
  have hjd : (JValue.obj mfields).jgetD "example" (.str "\x7b\x7d")
      = (mfields.lookup "example").getD (.str "\x7b\x7d") := rfl
  have hao : (JValue.obj mfields).asObj = some mfields := rfl
  cases hex : mfields.lookup "example" <;>
    simp only [extract_body_impl, htr, hrbo, hc, hhead, hmtr, hdesc, hhk, hjd, hao,
      hex, bodyAnnotation, Option.isSome_none, Option.isSome_some, Option.getD_some,
      if_true, if_false, Bool.false_eq_true, ite_false, ite_true]

/-- Witness for C9's amended theorem: one concrete single-run instance. -/
theorem extract_body_mutates_document_witness :
    extract_body_impl
      (.obj [("requestBody", .obj [("content", .obj [("application/json",
        .obj [("schema", .obj [("type", .str "object")])])])])])
      [] [] =
      some ([("body", .obj [("schema", .obj [("type", .str "object")]),
              ("description", .str " Body Content-Type: application/json")])],
            ["body"],
            some ("application/json",
              .obj [("schema", .obj [("type", .str "object")]),
                ("description", .str " Body Content-Type: application/json")])) := by
  have h := extract_body_mutates_document.1
    (.obj [("requestBody", .obj [("content", .obj [("application/json",
      .obj [("schema", .obj [("type", .str "object")])])])])])
    [] []
    [("content", JValue.obj [("application/json",
      JValue.obj [("schema", JValue.obj [("type", JValue.str "object")])])])]
    [("application/json", JValue.obj [("schema", JValue.obj [("type", JValue.str "object")])])]
    [("schema", JValue.obj [("type", JValue.str "object")])]
    "application/json" "" rfl rfl rfl rfl rfl rfl
  rw [h]
  rfl

/-- Helper: a failing attachment loop only ever extends the incoming effect
list with file opens — a send effect in its output must already have been
in its input. -/
theorem openAttachments_error_effects (fs : String → Bool)
    (gm : String → Option String) (cwd : String) :
    ∀ (l : List JValue) (effs : List Effect) (files : List FilePart)
      (e : CallError) (effs' : List Effect),
      openAttachments fs gm cwd l effs files = .error (e, effs') →
      Effect.httpSend ∈ effs' → Effect.httpSend ∈ effs := by
  intro l
  induction l with
  | nil =>
    intro effs files e effs' h
    simp [openAttachments] at h
  | cons v rest ih =>
    intro effs files e effs' h hmem
    cases v
    case str fp =>
      simp only [openAttachments] at h
      repeat' split at h
      all_goals
        first
        | (have hm := ih _ _ _ _ h hmem
           simp only [List.mem_append, List.mem_singleton] at hm
           rcases hm with hm | hm
           exacts [hm, absurd hm (by simp)])
        | (simp only [Except.error.injEq, Prod.mk.injEq] at h
           obtain ⟨-, rfl⟩ := h
           exact hmem)
    all_goals
      (simp only [openAttachments, Except.error.injEq, Prod.mk.injEq] at h
       obtain ⟨-, rfl⟩ := h
       exact hmem)

set_option maxHeartbeats 2000000 in
/-- Helper: once a dispatch has reached the encoding phase, if its trace
records the send attempt and the transport returned `resp`, the result is
`processResponse resp`. -/
theorem encodeAndSend_sent
    (getAuth : String → String → Except String (List (String × JValue)))
    (fs : String → Bool) (guessMime : String → Option String) (cwd : String)
    (meta : OperationMeta) (base_url : String)
    (arguments : List (String × JValue)) (resp : HttpResponse) :
    Effect.httpSend ∈ (encodeAndSend getAuth fs guessMime cwd (.ok resp) meta
      base_url arguments).2 →
    (encodeAndSend getAuth fs guessMime cwd (.ok resp) meta base_url
      arguments).1 = processResponse resp := by
  unfold encodeAndSend
  cases hch : create_headers getAuth meta
      (arguments.filter (fun kv =>
        ((meta.param_locations.lookup kv.1).getD "query") == "header")) with
  | error e =>
    simp only [hch]
    intro hm
    simp at hm
  | ok req_headers =>
    simp only [hch]
    repeat' split
    all_goals (intro hm)
    all_goals (try (simp at hm))
    all_goals (try rfl)
    all_goals (try (rename_i heq; repeat' split at heq))
    all_goals (try (rename_i heq; cases heq))
    all_goals (try (simp at hm))
    all_goals (try simp_all)
    all_goals
      (exact absurd
         (openAttachments_error_effects fs guessMime cwd _ _ _ _ _ heq hm)
         (by simp))

set_option maxHeartbeats 2000000 in
/-- Claim C8: for a final HTTP response (status in 200–599), a non-2xx/3xx
status makes the dispatch fail with an HTTP status error carrying the
status and body; a 2xx/3xx response yields the parsed JSON value when the
body parses, and the raw text otherwise — never an error for a non-JSON
body.  The last conjunct ties this to the dispatcher: whenever a dispatch
actually performs the send and the transport returns `resp`, the
dispatch's result is exactly `processResponse resp`. -/
theorem dispatch_response_normalisation :
    (∀ resp : HttpResponse, 200 ≤ resp.status → resp.status < 600 →
      (¬ resp.status < 400 →
        processResponse resp = .error (.httpStatusError resp.status resp.text))
      ∧ (resp.status < 400 → ∀ v, resp.json = some v →
        processResponse resp = .ok (.json v))
      ∧ (resp.status < 400 → resp.json = none →
        processResponse resp = .ok (.text resp.text)))
    ∧ (∀ (getAuth : String → String → Except String (List (String × JValue)))
        (fs : String → Bool) (guessMime : String → Option String) (cwd : String)
        (c : CallerState) (tool_name : String)
        (arguments : List (String × JValue)) (resp : HttpResponse),
        Effect.httpSend ∈ (call_tool getAuth fs guessMime cwd (.ok resp) c
          tool_name arguments).2 →
        (call_tool getAuth fs guessMime cwd (.ok resp) c tool_name arguments).1
          = processResponse resp) := by
  constructor
  · intro resp h1 h2
    refine ⟨?_, ?_, ?_⟩
    · intro h3
      have h4 : 400 ≤ resp.status ∧ resp.status < 600 := by omega
      simp [processResponse, raise_for_status, h4]
    · intro h3 v hv
      have h4 : ¬(400 ≤ resp.status ∧ resp.status < 600) := by omega
      simp [processResponse, raise_for_status, h4, hv]
    · intro h3 hv
      have h4 : ¬(400 ≤ resp.status ∧ resp.status < 600) := by omega
      simp [processResponse, raise_for_status, h4, hv]
  · intro getAuth fs guessMime cwd c tool_name arguments resp
    unfold call_tool
    repeat' split
    all_goals (intro hm)
    all_goals (try (simp at hm))
    all_goals (exact encodeAndSend_sent _ _ _ _ _ _ _ _ hm)

/-- Key membership agrees with lookup success. -/
theorem containsKey_eq_isSome {α : Type} (m : List (String × α)) (k : String) :
    containsKey m k = (m.lookup k).isSome := by
  induction m with
  | nil => rfl
  | cons p rest ih =>
    obtain ⟨k', v⟩ := p
    by_cases h : k = k'
    · subst h
      simp [containsKey, List.lookup]
    · have h2 : (k' == k) = false := by simp [h, Ne.symm h]
      have h3 : (k == k') = false := by simp [h]
      simp [containsKey, List.lookup, h2, h3]
      simpa [containsKey] using ih

/-- Membership after a dict write: the old keys plus the written one. -/
theorem containsKey_upsert {α : Type} (m : List (String × α)) (k n : String) (v : α) :
    containsKey (upsert m k v) n = (containsKey m n || (k == n)) := by
  induction m with
  | nil => simp [upsert, containsKey, Bool.or_comm]
  | cons p rest ih =>
    obtain ⟨k', v'⟩ := p
    by_cases h : k' = k
    · subst h
      simp only [upsert, if_pos rfl, containsKey, List.any_cons]
      cases h2 : (k' == n) <;> simp [h2]
    · simp only [upsert, if_neg h, containsKey, List.any_cons]
      cases h2 : (k' == n) <;> simp [h2] <;>
        simpa [containsKey] using ih

/-- Lookup after a dict write. -/
theorem lookup_upsert {α : Type} (m : List (String × α)) (k n : String) (v : α) :
    (upsert m k v).lookup n = if k = n then some v else m.lookup n := by
  induction m with
  | nil =>
    by_cases h : k = n
    · subst h; simp [upsert, List.lookup]
    · have h2 : (n == k) = false := by simp [Ne.symm h]
      simp [upsert, List.lookup, h, h2]
  | cons p rest ih =>
    obtain ⟨k', v'⟩ := p
    by_cases h : k' = k
    · subst h
      by_cases h2 : k' = n
      · subst h2; simp [upsert, List.lookup]
      · have h3 : (n == k') = false := by simp [Ne.symm h2]
        simp [upsert, List.lookup, h2, h3]
    · by_cases h2 : k' = n
      · subst h2
        have h3 : ¬ k = k' := fun hkn => h hkn.symm
        simp [upsert, if_neg h, List.lookup, ih, h3]
      · have h3 : (n == k') = false := by simp [Ne.symm h2]
        simp [upsert, h, List.lookup, h3, ih]

/-- The four registry maps have the same key set. -/
def registryAligned (st : CallerState) : Prop :=
  ∀ n, containsKey st.registry n = containsKey st.tools n
     ∧ containsKey st.tool_base_urls n = containsKey st.tools n
     ∧ containsKey st.tool_specs n = containsKey st.tools n

/-- Every stored base address is non-empty (Python-truthy). -/
def baseUrlsSane (st : CallerState) : Prop :=
  ∀ n u, st.tool_base_urls.lookup n = some u → u ≠ ""

/-- Shape of one registration step: it either leaves the state unchanged
(filtered/skipped/ignored entries) or writes the same name into all four
maps, with the step's base address in the base-URL map. -/
theorem processMethod_state (pfx base_url service_name auth_type : String)
    (it et ip ep : List String) (fuel : Nat) (path method : String)
    (st : CallerState) (spec : JValue) (out : CallerState × JValue)
    (h : processMethod pfx base_url service_name auth_type it et ip ep fuel
      path method st spec = some out) :
    out.1 = st ∨ ∃ nm tool meta spec2,
      out.1 = ⟨upsert st.tools nm tool, upsert st.registry nm meta,
               upsert st.tool_base_urls nm base_url,
               upsert st.tool_specs nm spec2⟩ := by
  unfold processMethod at h
  cases hv : (!(verbWhitelist.contains (pyLower method))) with
  | true =>
    rw [if_pos hv] at h
    cases h
    exact Or.inl rfl
  | false =>
    rw [if_neg (by simp only [hv]; simp)] at h
    cases hop : (((((spec.jgetD "paths" (JValue.obj [])).jget path).getD
        JValue.null).jget method).getD JValue.null).asObj with
    | none =>
      simp only [hop] at h
      cases h
    | some opfields =>
      simp only [hop] at h
      cases hip : (!ip.isEmpty && !(match_path path ip)) with
      | true =>
        rw [if_pos hip] at h
        cases h
        exact Or.inl rfl
      | false =>
        rw [if_neg (by simp only [hip]; simp)] at h
        cases hep : (!ep.isEmpty && match_path path ep) with
        | true =>
          rw [if_pos hep] at h
          cases h
          exact Or.inl rfl
        | false =>
          rw [if_neg (by simp only [hep]; simp)] at h
          cases hit : (if !it.isEmpty then
              match_any ((((((spec.jgetD "paths" (JValue.obj [])).jget path).getD
                JValue.null).jget method).getD JValue.null).jgetD "tags" (JValue.arr []))
                it
            else some true) with
          | none =>
            simp only [hit] at h
            cases h
          | some inclTagOk =>
            simp only [hit] at h
            cases hio : inclTagOk with
            | false =>
              rw [if_pos (by simp only [hio]; simp)] at h
              cases h
              exact Or.inl rfl
            | true =>
              rw [if_neg (by simp only [hio]; simp)] at h
              cases het : (if !et.isEmpty then
                  match_any ((((((spec.jgetD "paths" (JValue.obj [])).jget path).getD
                    JValue.null).jget method).getD JValue.null).jgetD "tags"
                    (JValue.arr [])) et
                else some false) with
              | none =>
                simp only [het] at h
                cases h
              | some exclTagHit =>
                simp only [het] at h
                cases heo : exclTagHit with
                | true =>
                  rw [if_pos heo] at h
                  cases h
                  exact Or.inl rfl
                | false =>
                  rw [if_neg (by simp only [heo]; simp)] at h
                  repeat' split at h
                  all_goals (try (cases h <;> exact Or.inl rfl))
                  all_goals (cases h <;> exact Or.inr ⟨_, _, _, _, rfl⟩)

/-- One registration step preserves alignment and base-URL sanity. -/
theorem processMethod_pres (pfx base_url service_name auth_type : String)
    (it et ip ep : List String) (fuel : Nat) (path method : String)
    (st : CallerState) (spec : JValue) (out : CallerState × JValue)
    (hbu : base_url ≠ "")
    (hal : registryAligned st) (hsane : baseUrlsSane st)
    (h : processMethod pfx base_url service_name auth_type it et ip ep fuel
      path method st spec = some out) :
    registryAligned out.1 ∧ baseUrlsSane out.1 := by
  rcases processMethod_state pfx base_url service_name auth_type it et ip ep
      fuel path method st spec out h with heq | ⟨nm, tool, meta, spec2, heq⟩
  · rw [heq]; exact ⟨hal, hsane⟩
  · rw [heq]
    constructor
    · intro n
      obtain ⟨h1, h2, h3⟩ := hal n
      simp [containsKey_upsert, h1, h2, h3]
    · intro n u hl
      simp only [lookup_upsert] at hl
      by_cases hn : nm = n
      · rw [if_pos hn] at hl
        cases hl
        exact hbu
      · rw [if_neg hn] at hl
        exact hsane n u hl

/-- The inner method fold preserves the invariants. -/
theorem foldMethods_pres (pfx base_url service_name auth_type : String)
    (it et ip ep : List String) (fuel : Nat) (path : String)
    (hbu : base_url ≠ "") :
    ∀ (ms : List String) (acc out : CallerState × JValue),
      registryAligned acc.1 → baseUrlsSane acc.1 →
      foldMethods pfx base_url service_name auth_type it et ip ep fuel path
        ms acc = some out →
      registryAligned out.1 ∧ baseUrlsSane out.1 := by
  intro ms
  induction ms with
  | nil =>
    intro acc out hal hsane h
    cases h
    exact ⟨hal, hsane⟩
  | cons m rest ih =>
    intro acc out hal hsane h
    unfold foldMethods at h
    simp only [Option.bind_eq_bind, Option.bind_eq_some] at h
    obtain ⟨acc', hp, h⟩ := h
    obtain ⟨hal', hsane'⟩ := processMethod_pres pfx base_url service_name
      auth_type it et ip ep fuel path m acc.1 acc.2 acc' hbu hal hsane hp
    exact ih acc' out hal' hsane' h

/-- The outer path fold preserves the invariants. -/
theorem foldPaths_pres (pfx base_url service_name auth_type : String)
    (it et ip ep : List String) (fuel : Nat) (hbu : base_url ≠ "") :
    ∀ (entries : List (String × JValue)) (acc out : CallerState × JValue),
      registryAligned acc.1 → baseUrlsSane acc.1 →
      foldPaths pfx base_url service_name auth_type it et ip ep fuel
        entries acc = some out →
      registryAligned out.1 ∧ baseUrlsSane out.1 := by
  intro entries
  induction entries with
  | nil =>
    intro acc out hal hsane h
    cases h
    exact ⟨hal, hsane⟩
  | cons e rest ih =>
    intro acc out hal hsane h
    obtain ⟨path, pitemV⟩ := e
    unfold foldPaths at h
    cases pitemV with
    | obj oentries =>
      simp only [Option.bind_eq_bind, Option.some_bind, Option.bind_eq_some] at h
      obtain ⟨acc', hfm, h⟩ := h
      obtain ⟨hal', hsane'⟩ := foldMethods_pres pfx base_url service_name
        auth_type it et ip ep fuel path hbu _ acc acc' hal hsane hfm
      exact ih acc' out hal' hsane' h
    | str sv =>
      simp only [Option.bind_eq_bind, Option.some_bind, Option.bind_eq_some] at h
      obtain ⟨acc', hfm, h⟩ := h
      obtain ⟨hal', hsane'⟩ := foldMethods_pres pfx base_url service_name
        auth_type it et ip ep fuel path hbu _ acc acc' hal hsane hfm
      exact ih acc' out hal' hsane' h
    | null => simp at h
    | bool b => simp at h
    | int n => simp at h
    | float q => simp at h
    | arr xs => simp at h

/-- Construction from the empty state preserves the invariants. -/
theorem initCaller_pres (fuel : Nat) :
    ∀ (cfgs : List OpenAPISpecCfg) (st out : CallerState),
      registryAligned st → baseUrlsSane st →
      initCaller fuel cfgs st = some out →
      registryAligned out ∧ baseUrlsSane out := by
  intro cfgs
  induction cfgs with
  | nil =>
    intro st out hal hsane h
    cases h
    exact ⟨hal, hsane⟩
  | cons cfg rest ih =>
    intro st out hal hsane h
    unfold initCaller at h
    cases hl : cfg.loadResult with
    | none =>
      rw [hl] at h
      exact ih st out hal hsane h
    | some spec =>
      simp only [hl] at h
      by_cases hbu : cfg.base_url = ""
      · rw [if_pos hbu] at h
        exact ih st out hal hsane h
      · rw [if_neg hbu] at h
        simp only [Option.bind_eq_bind, Option.bind_eq_some] at h
        obtain ⟨pr, hats, h⟩ := h
        unfold addToolsFromSpec at hats
        simp only [Option.bind_eq_bind, Option.bind_eq_some] at hats
        obtain ⟨fields, hso, hats⟩ := hats
        obtain ⟨pentries, hpo, hats⟩ := hats
        obtain ⟨hal', hsane'⟩ := foldPaths_pres cfg.pfx cfg.base_url
          cfg.service_name cfg.auth_type cfg.include_tags cfg.exclude_tags
          cfg.include_paths cfg.exclude_paths fuel hbu pentries (st, spec)
          pr hal hsane hats
        obtain ⟨st', spec'⟩ := pr
        exact ih st' out hal' hsane' h

/-- Helper: a failing attachment loop fails with an attachment error, never
with a missing-base-URL error. -/
theorem openAttachments_error_kind (fs : String → Bool)
    (gm : String → Option String) (cwd : String) :
    ∀ (l : List JValue) (effs : List Effect) (files : List FilePart)
      (e : CallError) (effs' : List Effect) (nm : String),
      openAttachments fs gm cwd l effs files = .error (e, effs') →
      e ≠ CallError.noBaseUrl nm := by
  intro l
  induction l with
  | nil =>
    intro effs files e effs' nm h
    simp [openAttachments] at h
  | cons v rest ih =>
    intro effs files e effs' nm h
    cases v
    case str fp =>
      simp only [openAttachments] at h
      repeat' split at h
      all_goals
        first
        | exact ih _ _ _ _ _ h
        | (simp only [Except.error.injEq, Prod.mk.injEq] at h
           obtain ⟨rfl, -⟩ := h
           simp)
    all_goals
      (simp only [openAttachments, Except.error.injEq, Prod.mk.injEq] at h
       obtain ⟨rfl, -⟩ := h
       simp)

/-- Helper: the send phase never reports a missing base URL. -/
theorem finishRequest_no_noBaseUrl (send : Except Unit HttpResponse)
    (pr : RequestData × List Effect) (nm : String) :
    (finishRequest send pr).1 ≠ Except.error (CallError.noBaseUrl nm) := by
  cases send with
  | error u =>
    show (Except.error CallError.transportError : Except CallError CallResult) ≠ _
    simp
  | ok resp =>
    show processResponse resp ≠ _
    cases hr : raise_for_status resp with
    | some e =>
      simp only [processResponse, hr]
      unfold raise_for_status at hr
      split at hr
      · cases hr; simp
      · cases hr
    | none =>
      simp only [processResponse, hr]
      cases hj : resp.json <;> simp [hj]

set_option maxHeartbeats 2000000 in
/-- Helper: the encoding-and-send phase never reports a missing base URL:
its failure constructors are auth, encoding, attachment, transport and
HTTP status errors only. -/
theorem encodeAndSend_no_noBaseUrl
    (getAuth : String → String → Except String (List (String × JValue)))
    (fs : String → Bool) (guessMime : String → Option String) (cwd : String)
    (send : Except Unit HttpResponse) (meta : OperationMeta)
    (base_url : String) (arguments : List (String × JValue)) (nm : String) :
    (encodeAndSend getAuth fs guessMime cwd send meta base_url
      arguments).1 ≠ Except.error (CallError.noBaseUrl nm) := by
  unfold encodeAndSend
  cases hch : create_headers getAuth meta
      (arguments.filter (fun kv =>
        ((meta.param_locations.lookup kv.1).getD "query") == "header")) with
  | error e =>
    simp only [hch]
    simp
  | ok req_headers =>
    simp only [hch]
    repeat' split
    all_goals (try (apply finishRequest_no_noBaseUrl))
    all_goals (try (rename_i heq; repeat' split at heq))
    all_goals (try (rename_i heq; cases heq))
    all_goals (try simp)
    all_goals (try simp_all)
    all_goals
      (exact openAttachments_error_kind fs guessMime cwd _ _ _ _ _ nm heq)

/-- Claim C10: after registry construction from any binding list, the four
registry maps (`tools`, `registry`, `tool_base_urls`, `tool_specs`) have
exactly the same key set; every registered name carries a non-empty base
address; and consequently a dispatch of a registered name never fails with
the dispatcher's "No base URL found" error. -/
theorem registry_maps_aligned (fuel : Nat) (cfgs : List OpenAPISpecCfg)
    (out : CallerState)
    (h : initCaller fuel cfgs emptyCaller = some out) :
    (∀ n, containsKey out.registry n = containsKey out.tools n
        ∧ containsKey out.tool_base_urls n = containsKey out.tools n
        ∧ containsKey out.tool_specs n = containsKey out.tools n)
    ∧ (∀ n, containsKey out.tools n = true →
        ∃ u, out.tool_base_urls.lookup n = some u ∧ u ≠ "")
    ∧ (∀ getAuth fs guessMime cwd send n args nm,
        containsKey out.tools n = true →
        (call_tool getAuth fs guessMime cwd send out n args).1
          ≠ Except.error (CallError.noBaseUrl nm)) := by
  have hal0 : registryAligned emptyCaller := fun n => ⟨rfl, rfl, rfl⟩
  have hsane0 : baseUrlsSane emptyCaller := by
    intro n u hu
    simp [emptyCaller, List.lookup] at hu
  obtain ⟨hal, hsane⟩ := initCaller_pres fuel cfgs emptyCaller out hal0 hsane0 h
  have hurl : ∀ n, containsKey out.tools n = true →
      ∃ u, out.tool_base_urls.lookup n = some u ∧ u ≠ "" := by
    intro n hn
    have h1 : containsKey out.tool_base_urls n = true := by
      rw [(hal n).2.1, hn]
    rw [containsKey_eq_isSome] at h1
    cases hu : out.tool_base_urls.lookup n with
    | none => rw [hu] at h1; cases h1
    | some u => exact ⟨u, rfl, hsane n u hu⟩
  refine ⟨hal, hurl, ?_⟩
  intro getAuth fs guessMime cwd send n args nm hn
  have hreg : containsKey out.registry n = true := by rw [(hal n).1, hn]
  have htools := hn
  rw [containsKey_eq_isSome] at htools
  rw [containsKey_eq_isSome] at hreg
  cases ht : out.tools.lookup n with
  | none => rw [ht] at htools; cases htools
  | some tool =>
  cases hr : out.registry.lookup n with
  | none => rw [hr] at hreg; cases hreg
  | some meta =>
  obtain ⟨u, hb, hune⟩ := hurl n hn
  unfold call_tool
  simp only [ht, hr]
  cases hf : tool.inputSchema.required.find? (fun r => !(containsKey args r)) with
  | some r => simp [hf]
  | none =>
    simp only [hf]
    have hbeq : (((out.tool_base_urls.lookup n).getD "") == "") = false := by
      rw [hb]
      simp [hune]
    simp only [hbeq]
    exact encodeAndSend_no_noBaseUrl getAuth fs guessMime cwd send meta _ args nm

/-- Witness for C10: the eight-verb fixture registers seven actions with
base address `http://h`; the alignment, non-empty-base-URL and
no-`noBaseUrl`-error facts hold of the constructed registry. -/
theorem registry_maps_aligned_witness :
    ∃ out, initCaller 1 [allVerbsCfg] emptyCaller = some out ∧
      ((∀ n, containsKey out.registry n = containsKey out.tools n
          ∧ containsKey out.tool_base_urls n = containsKey out.tools n
          ∧ containsKey out.tool_specs n = containsKey out.tools n)
      ∧ (∀ n, containsKey out.tools n = true →
          ∃ u, out.tool_base_urls.lookup n = some u ∧ u ≠ "")
      ∧ (∀ getAuth fs guessMime cwd send n args nm,
          containsKey out.tools n = true →
          (call_tool getAuth fs guessMime cwd send out n args).1
            ≠ Except.error (CallError.noBaseUrl nm))) := by
  have h : initCaller 1 [allVerbsCfg] emptyCaller
      = some ((initCaller 1 [allVerbsCfg] emptyCaller).getD emptyCaller) := rfl
  exact ⟨_, h, registry_maps_aligned 1 [allVerbsCfg] _ h⟩

/-- Witness for C8: evaluated at a 404 response with a non-JSON body, a 200
response with a JSON body, and a concrete dispatch that performs the send. -/
theorem dispatch_response_normalisation_witness :
    (processResponse ⟨404, "nf", none⟩
      = .error (.httpStatusError 404 "nf"))
    ∧ (processResponse ⟨200, "ok", some (JValue.obj [])⟩
      = .ok (.json (JValue.obj [])))
    ∧ ((call_tool (fun _ _ => .ok []) (fun _ => true) (fun _ => none) "/w"
        (.ok ⟨200, "ok", some (JValue.obj [])⟩) callerWithId "t"
        [("id", JValue.str "5")]).1
      = processResponse ⟨200, "ok", some (JValue.obj [])⟩) := by
  refine ⟨?_, ?_, ?_⟩
  · exact (dispatch_response_normalisation.1 ⟨404, "nf", none⟩
      (by decide) (by decide)).1 (by decide)
  · exact (dispatch_response_normalisation.1 ⟨200, "ok", some (JValue.obj [])⟩
      (by decide) (by decide)).2.1 (by decide) (JValue.obj []) rfl
  · exact dispatch_response_normalisation.2 (fun _ _ => .ok []) (fun _ => true)
      (fun _ => none) "/w" callerWithId "t" [("id", JValue.str "5")]
      ⟨200, "ok", some (JValue.obj [])⟩ (by decide)
